import Mathlib

/-!
Shallow embedding of bridge.js, a POL token bridge script between the
Sepolia and Amoy test networks.  External effects (chain reads, submitted
transactions, HTTP fetches of the proof service) are modelled by oracle
fields in environment structures, and each entry point returns its outcome
together with the ordered trace of external calls it performed.  An
uncaught JavaScript exception is modelled by the error case of Except.
-/

namespace PolBridge

/-- Configuration addresses drawn from environment variables in bridge.js
(DEPOSIT_MANAGER, POL_SEPOLIA, POL_AMOY, ERC20_PREDICATE, WITHDRAW_MANAGER)
together with the wallet address used for queries. -/
structure Config where
  depositManager : String
  polSepolia : String
  polAmoy : String
  erc20Predicate : String
  withdrawManager : String
  walletAddress : String
deriving DecidableEq

/-- Result of awaiting a submitted chain transaction: the mined transaction
hash, or the failure message of a rejected or reverted transaction. -/
inductive TxResult where
  | ok (hash : String)
  | fail (msg : String)
deriving DecidableEq

/-- One external call made by the script, recorded in program order. -/
inductive ChainCall where
  | getCode (addr : String)
  | balanceOf (token : String) (account : String)
  | approve (token : String) (spender : String) (amount : Nat)
  | depositERC20ForUser (contract : String) (token : String) (user : String) (amount : Nat)
  | withdrawBurn (token : String) (amount : Nat) (value : Nat)
  | fetchProof (txHash : String)
  | startExitWithBurntTokens (contract : String) (proof : String)
  | processExits (contract : String) (token : String)
deriving DecidableEq

/-- Read-only queries and HTTP requests are not transactions; every other
call submits a signed transaction. -/
def ChainCall.isTx : ChainCall → Bool
  | .getCode _ => false
  | .balanceOf _ _ => false
  | .fetchProof _ => false
  | _ => true

/-- Boolean test that pat is a leading segment of l. -/
def prefixMatch : List Char → List Char → Bool
  | [], _ => true
  | _ :: _, [] => false
  | c :: cs, d :: ds => c = d && prefixMatch cs ds

/-- Boolean test that pat occurs contiguously somewhere in l. -/
def infixMatch (pat : List Char) : List Char → Bool
  | [] => prefixMatch pat []
  | d :: rest => prefixMatch pat (d :: rest) || infixMatch pat rest

/-- Model of the JavaScript String includes method: pat occurs in msg. -/
def includesSubstr (msg pat : String) : Bool := infixMatch pat.toList msg.toList

/-- Error substring marking an exit already started, bridge.js line 230. -/
def knownExit : String := "KNOWN_EXIT"

/-- Numeric value of a list of decimal digit characters. -/
def digitsVal (l : List Char) : Nat :=
  l.foldl (fun acc c => acc * 10 + (c.toNat - 48)) 0

/-- Splits a character list at every dot character. -/
def splitOnDot : List Char → List (List Char)
  | [] => [[]]
  | c :: rest =>
    let r := splitOnDot rest
    if c = '.' then [] :: r
    else
      match r with
      | [] => [[c]]
      | h :: t => (c :: h) :: t

/-- Model of ethers.parseEther on nonnegative decimal strings: the value is
scaled by 10 to the 18, allowing at most 18 fractional digits.  The none
case models the exception ethers throws on any other input. -/
def parseEther (s : String) : Option Nat :=
  match splitOnDot s.toList with
  | [w] =>
    if w ≠ [] && w.all Char.isDigit then some (digitsVal w * 10 ^ 18) else none
  | [w, f] =>
    if w ≠ [] && f ≠ [] && w.all Char.isDigit && f.all Char.isDigit
        && decide (f.length ≤ 18) then
      some (digitsVal w * 10 ^ 18 + digitsVal f * 10 ^ (18 - f.length))
    else none
  | _ => none

/-- CLI amount argument with the JavaScript falsy default, amountArg or the
string 1 (bridge.js lines 121 and 319): a missing or empty argument becomes
the string 1. -/
def argOrDefault (amountArg : Option String) : String :=
  match amountArg with
  | none => "1"
  | some s => if s = "" then ("1") else s

/-- Message of the exception ethers throws on an unparseable amount. -/
def invalidAmountMsg : String := "invalid decimal string"

/-- Outcome of one fetch of the proof endpoint: an HTTP response carrying
its status code and, when the body parses as JSON, the result payload (the
none case models a body on which response.json() throws), or a network
error carrying its message. -/
inductive FetchOutcome where
  | response (status : Nat) (json : Option String)
  | networkError (msg : String)

/-- WHATWG fetch response.ok: status in the inclusive range 200 to 299. -/
def responseOk (status : Nat) : Bool := 200 ≤ status && status ≤ 299

/-- Attempts on which the poll loop returns: an ok-status response whose
body parsed, yielding the payload. -/
def FetchOutcome.isOk : FetchOutcome → Bool
  | .response st (some _) => responseOk st
  | _ => false

/-- Attempt budget of the checkpoint poll loop, bridge.js line 165. -/
def maxAttempts : Nat := 360

/-- Sleep between poll attempts in milliseconds, bridge.js line 194. -/
def pollIntervalMs : Nat := 30000

/-- Message of the error thrown when the poll budget is exhausted,
bridge.js line 198. -/
def checkpointTimeoutMsg : String :=
  "Checkpoint timeout - transaction not checkpointed after 180 minutes"

/-- Poll loop of waitForCheckpoint.  The fuel argument counts the remaining
attempts (maxAttempts minus attempts, matching the while condition attempts
less than maxAttempts).  Each iteration performs one fetch; an ok response
whose body parses returns the payload; every other case, a non-ok status,
a JSON parse failure and a network error alike, falls through to the next
attempt; exhausted fuel throws the checkpoint timeout error. -/
def pollFrom (txHash : String) (responses : Nat → FetchOutcome) :
    Nat → Nat → Except String String × List ChainCall
  | _, 0 => (Except.error checkpointTimeoutMsg, [])
  | attempts, remaining + 1 =>
    match responses attempts with
    | .response status json =>
      if responseOk status then
        match json with
        | some r => (Except.ok r, [ChainCall.fetchProof txHash])
        | none =>
          let rest := pollFrom txHash responses (attempts + 1) remaining
          (rest.1, ChainCall.fetchProof txHash :: rest.2)
      else
        let rest := pollFrom txHash responses (attempts + 1) remaining
        (rest.1, ChainCall.fetchProof txHash :: rest.2)
    | .networkError _ =>
      let rest := pollFrom txHash responses (attempts + 1) remaining
      (rest.1, ChainCall.fetchProof txHash :: rest.2)

/-- waitForCheckpoint from bridge.js: poll the proof endpoint for the given
burn transaction hash, starting at attempt 0 with the full budget. -/
def waitForCheckpoint (txHash : String) (responses : Nat → FetchOutcome) :
    Except String String × List ChainCall :=
  pollFrom txHash responses 0 maxAttempts

/-- Oracle results for the three transactions processExit may submit. -/
structure ExitEnv where
  startExitResult : TxResult
  processExitsResult : TxResult
  processExitsRetryResult : TxResult
deriving DecidableEq

/-- Outer catch of processExit, bridge.js lines 256 to 282: an error whose
message contains KNOWN_EXIT triggers one immediate retry of processExits,
whose success swallows the error; otherwise the error is rethrown with its
original message. -/
def processExitCatch (cfg : Config) (eenv : ExitEnv) (msg : String)
    (calls : List ChainCall) : Except String Unit × List ChainCall :=
  if includesSubstr msg knownExit then
    let calls2 := calls ++ [ChainCall.processExits cfg.withdrawManager cfg.polSepolia]
    match eenv.processExitsRetryResult with
    | .ok _ => (Except.ok (), calls2)
    | .fail _ => (Except.error msg, calls2)
  else (Except.error msg, calls)

/-- Step 2 of processExit, bridge.js lines 238 to 252: call processExits on
the withdraw manager for the POL token; a failure falls to the outer
catch. -/
def processExitStep2 (cfg : Config) (eenv : ExitEnv) (calls : List ChainCall) :
    Except String Unit × List ChainCall :=
  let calls2 := calls ++ [ChainCall.processExits cfg.withdrawManager cfg.polSepolia]
  match eenv.processExitsResult with
  | .ok _ => (Except.ok (), calls2)
  | .fail msg => processExitCatch cfg eenv msg calls2

/-- processExit from bridge.js: submit the proof via startExitWithBurntTokens
on the predicate contract.  A start failure whose message contains
KNOWN_EXIT is swallowed by the inner catch, bridge.js lines 228 to 236, and
step 2 runs anyway; any other start failure is rethrown to the outer catch,
which tests the same message again and therefore propagates it without
reaching step 2. -/
def processExit (cfg : Config) (proof : String) (eenv : ExitEnv) :
    Except String Unit × List ChainCall :=
  let calls0 := [ChainCall.startExitWithBurntTokens cfg.erc20Predicate proof]
  match eenv.startExitResult with
  | .ok _ => processExitStep2 cfg eenv calls0
  | .fail msg =>
    if includesSubstr msg knownExit then processExitStep2 cfg eenv calls0
    else processExitCatch cfg eenv msg calls0

/-- Outcome of completeExit: a missing hash argument prints usage and
returns, success prints completion, and a caught error reports its
message (bridge.js lines 445 to 466). -/
inductive CompleteExitOutcome where
  | usageError
  | completed
  | failed (msg : String)
deriving DecidableEq

/-- completeExit from bridge.js: require a transaction hash argument, fetch
the proof via waitForCheckpoint, then run processExit; any error thrown by
either step is caught and reported with its message. -/
def completeExit (cfg : Config) (txHashArg : Option String)
    (responses : Nat → FetchOutcome) (eenv : ExitEnv) :
    CompleteExitOutcome × List ChainCall :=
  match txHashArg with
  | none => (CompleteExitOutcome.usageError, [])
  | some txHash =>
    if txHash = "" then (CompleteExitOutcome.usageError, [])
    else
      match waitForCheckpoint txHash responses with
      | (Except.error msg, calls) => (CompleteExitOutcome.failed msg, calls)
      | (Except.ok proof, calls) =>
        match processExit cfg proof eenv with
        | (Except.ok _, calls2) => (CompleteExitOutcome.completed, calls ++ calls2)
        | (Except.error msg, calls2) => (CompleteExitOutcome.failed msg, calls ++ calls2)

/-- Outcome of finalizeExit: finalized, or failure reported with the
underlying message (bridge.js lines 478 to 499). -/
inductive FinalizeOutcome where
  | finalized
  | finalizeFailed (msg : String)
deriving DecidableEq

/-- finalizeExit from bridge.js: a single processExits call on the withdraw
manager for the POL token on Sepolia; a failure is caught and reported. -/
def finalizeExit (cfg : Config) (pe : TxResult) : FinalizeOutcome × List ChainCall :=
  let calls := [ChainCall.processExits cfg.withdrawManager cfg.polSepolia]
  match pe with
  | .ok _ => (FinalizeOutcome.finalized, calls)
  | .fail msg => (FinalizeOutcome.finalizeFailed msg, calls)

/-- Oracle inputs of one withdrawPOL invocation: the code query result, the
queried balance, the CLI amount argument, the burn transaction result, the
AUTO_COMPLETE environment variable, the proof service responses and the
exit transaction results. -/
structure WithdrawEnv where
  code : String
  bal : Nat
  amountArg : Option String
  burnResult : TxResult
  autoComplete : Option String
  responses : Nat → FetchOutcome
  exitEnv : ExitEnv

/-- Outcome of a normally returning withdrawPOL run: each early return of
bridge.js is a distinct case, and the two step 5 completions are manual
handoff (carrying the burn hash the script printed) and automatic
completion. -/
inductive WithdrawOutcome where
  | noContract
  | insufficientBalance
  | burnFailed (msg : String)
  | manualHandoff (burnTxHash : String)
  | autoCompleted (burnTxHash : String)
deriving DecidableEq

/-- withdrawPOL from bridge.js.  Step 0 queries the code at POL_AMOY and
returns early on 0x.  Step 1 queries the balance.  Step 2 parses the amount
argument with default 1.  Step 3 returns early when the balance is below
the amount.  Step 4 submits the burn, the withdraw call carrying the amount
both as the call argument and as the transaction value; a burn failure is
reported with its message and returns.  Step 5 either polls for the
checkpoint and processes the exit when AUTO_COMPLETE is the string true,
any thrown error propagating uncaught, or stops in manual handoff exposing
the burn transaction hash. -/
def withdrawPOL (cfg : Config) (env : WithdrawEnv) :
    Except String WithdrawOutcome × List ChainCall :=
  let calls0 := [ChainCall.getCode cfg.polAmoy]
  if env.code = "0x" then (Except.ok WithdrawOutcome.noContract, calls0)
  else
    let calls1 := calls0 ++ [ChainCall.balanceOf cfg.polAmoy cfg.walletAddress]
    match parseEther (argOrDefault env.amountArg) with
    | none => (Except.error invalidAmountMsg, calls1)
    | some withdrawAmount =>
      if env.bal < withdrawAmount then
        (Except.ok WithdrawOutcome.insufficientBalance, calls1)
      else
        let calls2 := calls1 ++
          [ChainCall.withdrawBurn cfg.polAmoy withdrawAmount withdrawAmount]
        match env.burnResult with
        | .fail msg => (Except.ok (WithdrawOutcome.burnFailed msg), calls2)
        | .ok burnHash =>
          if env.autoComplete = some ("true") then
            match waitForCheckpoint burnHash env.responses with
            | (Except.error msg, pollCalls) => (Except.error msg, calls2 ++ pollCalls)
            | (Except.ok proof, pollCalls) =>
              match processExit cfg proof env.exitEnv with
              | (Except.ok _, exitCalls) =>
                (Except.ok (WithdrawOutcome.autoCompleted burnHash),
                 calls2 ++ pollCalls ++ exitCalls)
              | (Except.error msg, exitCalls) =>
                (Except.error msg, calls2 ++ pollCalls ++ exitCalls)
          else (Except.ok (WithdrawOutcome.manualHandoff burnHash), calls2)

/-- Oracle inputs of one bridgePOL (deposit) invocation. -/
structure DepositEnv where
  amountArg : Option String
  approveResult : TxResult
  depositResult : TxResult
deriving DecidableEq

/-- Outcome of a normally returning bridgePOL run. -/
inductive DepositOutcome where
  | deposited
deriving DecidableEq

/-- bridgePOL (the deposit command) from bridge.js: parse the amount with
default 1, approve the deposit manager on the POL token, then call
depositERC20ForUser on the deposit manager; a failure of either transaction
propagates uncaught with the underlying message. -/
def bridgePOL (cfg : Config) (denv : DepositEnv) :
    Except String DepositOutcome × List ChainCall :=
  match parseEther (argOrDefault denv.amountArg) with
  | none => (Except.error invalidAmountMsg, [])
  | some amountWei =>
    let calls1 := [ChainCall.approve cfg.polSepolia cfg.depositManager amountWei]
    match denv.approveResult with
    | .fail msg => (Except.error msg, calls1)
    | .ok _ =>
      let calls2 := calls1 ++
        [ChainCall.depositERC20ForUser cfg.depositManager cfg.polSepolia
          cfg.walletAddress amountWei]
      match denv.depositResult with
      | .fail msg => (Except.error msg, calls2)
      | .ok _ => (Except.ok DepositOutcome.deposited, calls2)

/-! Helper lemmas about the poll loop. -/

/-- One poll step on an attempt whose fetch outcome does not return: the
loop records the request and recurses on the next attempt. -/
lemma pollFrom_step_notOk (tx : String) (resp : Nat → FetchOutcome) (a n : Nat)
    (h : (resp a).isOk = false) :
    pollFrom tx resp a (n + 1) =
      ((pollFrom tx resp (a + 1) n).1,
        ChainCall.fetchProof tx :: (pollFrom tx resp (a + 1) n).2) := by
  simp only [pollFrom]
  cases hra : resp a with
  | response st json =>
    rw [hra] at h
    cases json with
    | some r =>
      have hst : responseOk st = false := by simpa [FetchOutcome.isOk] using h
      simp [hst]
    | none => by_cases hst : responseOk st = true <;> simp [hst]
  | networkError m => simp

/-- One poll step on an attempt whose fetch outcome is an ok-status response
with a parsed body: the loop returns the payload after this one request. -/
lemma pollFrom_step_ok (tx : String) (resp : Nat → FetchOutcome) (a n st : Nat)
    (r : String) (hr : resp a = FetchOutcome.response st (some r))
    (hok : responseOk st = true) :
    pollFrom tx resp a (n + 1) = (Except.ok r, [ChainCall.fetchProof tx]) := by
  simp only [pollFrom]
  rw [hr]
  simp [hok]

/-- The poll loop performs at most fuel many requests. -/
lemma pollFrom_length_le (tx : String) (resp : Nat → FetchOutcome) :
    ∀ fuel a, ((pollFrom tx resp a fuel).2).length ≤ fuel := by
  intro fuel
  induction fuel with
  | zero => intro a; simp [pollFrom]
  | succ n ih =>
    intro a
    by_cases h : (resp a).isOk = true
    · cases hra : resp a with
      | response st json =>
        rw [hra] at h
        cases json with
        | some r =>
          have hok : responseOk st = true := by simpa [FetchOutcome.isOk] using h
          rw [pollFrom_step_ok tx resp a n st r hra hok]
          simp
        | none => simp [FetchOutcome.isOk] at h
      | networkError m => rw [hra] at h; simp [FetchOutcome.isOk] at h
    · have h' : (resp a).isOk = false := by simpa using h
      rw [pollFrom_step_notOk tx resp a n h']
      simpa using ih (a + 1)

/-- When the first returning fetch outcome sits k attempts ahead and fuel
suffices, the poll loop returns its payload after exactly k + 1 requests. -/
lemma pollFrom_ok_at (tx : String) (resp : Nat → FetchOutcome) (st : Nat) (r : String) :
    ∀ k fuel a, k < fuel →
      (∀ i, i < k → (resp (a + i)).isOk = false) →
      resp (a + k) = FetchOutcome.response st (some r) →
      responseOk st = true →
      pollFrom tx resp a fuel =
        (Except.ok r, List.replicate (k + 1) (ChainCall.fetchProof tx)) := by
  intro k
  induction k with
  | zero =>
    intro fuel a hk hb hr hok
    obtain ⟨n, rfl⟩ : ∃ n, fuel = n + 1 := ⟨fuel - 1, by omega⟩
    rw [Nat.add_zero] at hr
    rw [pollFrom_step_ok tx resp a n st r hr hok]
    simp
  | succ k ih =>
    intro fuel a hk hb hr hok
    obtain ⟨n, rfl⟩ : ∃ n, fuel = n + 1 := ⟨fuel - 1, by omega⟩
    have h0 : (resp a).isOk = false := by
      have := hb 0 (by omega)
      rwa [Nat.add_zero] at this
    rw [pollFrom_step_notOk tx resp a n h0]
    have hrec := ih n (a + 1) (by omega)
      (fun i hi => by
        have := hb (i + 1) (by omega)
        rwa [show a + (i + 1) = a + 1 + i by omega] at this)
      (by rwa [show a + 1 + k = a + (k + 1) by omega])
      hok
    rw [hrec]
    simp [List.replicate_succ]

/-- The only error the poll loop can produce is the checkpoint timeout. -/
lemma pollFrom_error_eq (tx : String) (resp : Nat → FetchOutcome) :
    ∀ fuel a e, (pollFrom tx resp a fuel).1 = Except.error e →
      e = checkpointTimeoutMsg := by
  intro fuel
  induction fuel with
  | zero =>
    intro a e h
    simp [pollFrom] at h
    exact h.symm
  | succ n ih =>
    intro a e h
    by_cases hok : (resp a).isOk = true
    · cases hra : resp a with
      | response st json =>
        rw [hra] at hok
        cases json with
        | some r =>
          have hst : responseOk st = true := by simpa [FetchOutcome.isOk] using hok
          rw [pollFrom_step_ok tx resp a n st r hra hst] at h
          simp at h
        | none => simp [FetchOutcome.isOk] at hok
      | networkError m => rw [hra] at hok; simp [FetchOutcome.isOk] at hok
    · have h' : (resp a).isOk = false := by simpa using hok
      rw [pollFrom_step_notOk tx resp a n h'] at h
      exact ih (a + 1) e h

/-- When no fetch outcome within the fuel budget returns, the poll loop
fails with the checkpoint timeout. -/
lemma pollFrom_timeout (tx : String) (resp : Nat → FetchOutcome) :
    ∀ fuel a, (∀ i, i < fuel → (resp (a + i)).isOk = false) →
      (pollFrom tx resp a fuel).1 = Except.error checkpointTimeoutMsg := by
  intro fuel
  induction fuel with
  | zero => intro a _; simp [pollFrom]
  | succ n ih =>
    intro a hb
    have h0 : (resp a).isOk = false := by
      have := hb 0 (by omega)
      rwa [Nat.add_zero] at this
    rw [pollFrom_step_notOk tx resp a n h0]
    exact ih (a + 1) (fun i hi => by
      have := hb (i + 1) (by omega)
      rwa [show a + (i + 1) = a + 1 + i by omega] at this)

/-! Helper lemmas about the withdrawal entry point. -/

/-- Early return of withdrawPOL when no contract code is found. -/
lemma withdrawPOL_noContract (cfg : Config) (env : WithdrawEnv)
    (hcode : env.code = "0x") :
    withdrawPOL cfg env =
      (Except.ok WithdrawOutcome.noContract, [ChainCall.getCode cfg.polAmoy]) := by
  simp only [withdrawPOL]
  rw [if_pos hcode]

/-- Early return of withdrawPOL when the balance is below the amount: the
operation reports insufficient balance after only the two read queries. -/
lemma withdrawPOL_insufficient (cfg : Config) (env : WithdrawEnv) (w : Nat)
    (hcode : ¬ env.code = "0x") (hp : parseEther (argOrDefault env.amountArg) = some w)
    (hbal : env.bal < w) :
    withdrawPOL cfg env =
      (Except.ok WithdrawOutcome.insufficientBalance,
       [ChainCall.getCode cfg.polAmoy,
        ChainCall.balanceOf cfg.polAmoy cfg.walletAddress]) := by
  simp only [withdrawPOL, hp]
  rw [if_neg hcode, if_pos hbal]
  simp

/-- Past the balance check, the trace of withdrawPOL starts with the code
query, the balance query and the burn transaction carrying the parsed
amount both as argument and as value, whatever happens afterwards. -/
lemma withdrawPOL_burn_trace (cfg : Config) (env : WithdrawEnv) (w : Nat)
    (hcode : ¬ env.code = "0x") (hp : parseEther (argOrDefault env.amountArg) = some w)
    (hbal : ¬ env.bal < w) :
    ∃ rest, (withdrawPOL cfg env).2 =
      ChainCall.getCode cfg.polAmoy ::
      ChainCall.balanceOf cfg.polAmoy cfg.walletAddress ::
      ChainCall.withdrawBurn cfg.polAmoy w w :: rest := by
  simp only [withdrawPOL, hp]
  rw [if_neg hcode, if_neg hbal]
  cases hb : env.burnResult with
  | fail msg => exact ⟨[], by simp⟩
  | ok h =>
    by_cases hauto : env.autoComplete = some ("true")
    · rcases hwc : waitForCheckpoint h env.responses with ⟨res, pollCalls⟩
      cases res with
      | error msg => exact ⟨pollCalls, by simp [hauto, hwc]⟩
      | ok proof =>
        rcases hpe : processExit cfg proof env.exitEnv with ⟨res2, exitCalls⟩
        cases res2 with
        | error msg => exact ⟨pollCalls ++ exitCalls, by simp [hauto, hwc, hpe]⟩
        | ok u => exact ⟨pollCalls ++ exitCalls, by simp [hauto, hwc, hpe]⟩
    · exact ⟨[], by simp [hauto]⟩

/-- Burn failure branch of withdrawPOL: the failure message is reported,
the trace ends at the burn transaction, and nothing is retried. -/
lemma withdrawPOL_burnFail (cfg : Config) (env : WithdrawEnv) (w : Nat) (msg : String)
    (hcode : ¬ env.code = "0x") (hp : parseEther (argOrDefault env.amountArg) = some w)
    (hbal : ¬ env.bal < w) (hburn : env.burnResult = TxResult.fail msg) :
    withdrawPOL cfg env =
      (Except.ok (WithdrawOutcome.burnFailed msg),
       [ChainCall.getCode cfg.polAmoy,
        ChainCall.balanceOf cfg.polAmoy cfg.walletAddress,
        ChainCall.withdrawBurn cfg.polAmoy w w]) := by
  simp only [withdrawPOL, hp, hburn]
  rw [if_neg hcode, if_neg hbal]
  simp

/-- Manual handoff branch of withdrawPOL: with automatic completion not
configured, the run stops after the confirmed burn, returning the burn
transaction hash, without any further external call. -/
lemma withdrawPOL_manual (cfg : Config) (env : WithdrawEnv) (w : Nat) (h : String)
    (hcode : ¬ env.code = "0x") (hp : parseEther (argOrDefault env.amountArg) = some w)
    (hbal : ¬ env.bal < w) (hburn : env.burnResult = TxResult.ok h)
    (hauto : ¬ env.autoComplete = some ("true")) :
    withdrawPOL cfg env =
      (Except.ok (WithdrawOutcome.manualHandoff h),
       [ChainCall.getCode cfg.polAmoy,
        ChainCall.balanceOf cfg.polAmoy cfg.walletAddress,
        ChainCall.withdrawBurn cfg.polAmoy w w]) := by
  simp only [withdrawPOL, hp, hburn]
  rw [if_neg hcode, if_neg hbal, if_neg hauto]
  simp

/-! Concrete fixtures used by witnesses and counterexamples. -/

/-- Concrete configuration used by witnesses and counterexamples. -/
def cfgT : Config :=
  { depositManager := "0xDM", polSepolia := "0xPOLS", polAmoy := "0xPOLA",
    erc20Predicate := "0xPRED", withdrawManager := "0xWM", walletAddress := "0xME" }

/-- Exit transaction oracle where every transaction succeeds. -/
def eenvOk : ExitEnv :=
  { startExitResult := TxResult.ok ("0xSE"),
    processExitsResult := TxResult.ok ("0xPE"),
    processExitsRetryResult := TxResult.ok ("0xPR") }

/-- Proof service oracle where every fetch hits a network error. -/
def respNever : Nat → FetchOutcome := fun _ => FetchOutcome.networkError ("fetch failed")

/-- Proof service oracle: two network errors, then a 200 with a payload. -/
def respSlow : Nat → FetchOutcome := fun i =>
  if i < 2 then FetchOutcome.networkError ("connection reset")
  else FetchOutcome.response 200 (some ("0xproof"))

/-- Proof service oracle answering 201 with a payload on every attempt. -/
def resp201 : Nat → FetchOutcome := fun _ => FetchOutcome.response 201 (some ("0xproof"))

/-- Withdrawal oracle: contract code present, balance of 2 tokens, amount
argument 1, successful burn, automatic completion not configured. -/
def wenvT : WithdrawEnv :=
  { code := "0x6080", bal := 2 * 10 ^ 18, amountArg := some ("1"),
    burnResult := TxResult.ok ("0xBURN"), autoComplete := none,
    responses := respNever, exitEnv := eenvOk }

/-! Claims. -/

/-- C1: for every withdrawal whose queried contract code is nonempty and
whose requested amount parses to w wei with 0 < w and w at most the queried
balance, the burn call is issued with both the withdraw method argument and
the transaction value equal to w; for w above the balance, no transaction
is submitted and the insufficient balance condition is reported. -/
theorem c1_withdraw_burn_and_insufficient (cfg : Config) (env : WithdrawEnv) (w : Nat)
    (hcode : ¬ env.code = "0x")
    (hp : parseEther (argOrDefault env.amountArg) = some w) :
    (0 < w → w ≤ env.bal →
      ChainCall.withdrawBurn cfg.polAmoy w w ∈ (withdrawPOL cfg env).2)
    ∧ (env.bal < w →
      (withdrawPOL cfg env).1 = Except.ok WithdrawOutcome.insufficientBalance
      ∧ ∀ c ∈ (withdrawPOL cfg env).2, c.isTx = false) := by
  constructor
  · intro hw hle
    obtain ⟨rest, hr⟩ := withdrawPOL_burn_trace cfg env w hcode hp (by omega)
    rw [hr]
    simp
  · intro hbal
    rw [withdrawPOL_insufficient cfg env w hcode hp hbal]
    refine ⟨rfl, ?_⟩
    intro c hc
    simp only [List.mem_cons, List.mem_singleton, List.not_mem_nil, or_false] at hc
    rcases hc with rfl | rfl <;> rfl

/-- C1 witness: with code present, a balance of 2 tokens and amount
argument 1, the burn is issued with argument and value both 10 ^ 18. -/
theorem c1_witness :
    ChainCall.withdrawBurn cfgT.polAmoy (10 ^ 18) (10 ^ 18) ∈ (withdrawPOL cfgT wenvT).2 :=
  (c1_withdraw_burn_and_insufficient cfgT wenvT (10 ^ 18) (by decide) (by decide)).1
    (by decide) (by decide)

/-- C2 counterexample: a response with the non-200 status 201 and a parsed
body does not cause the loop to continue polling, contrary to the claim
that every non-200 status continues: the loop returns the payload after a
single request, because the code tests response.ok, true for every status
from 200 to 299. -/
theorem c2_counterexample :
    waitForCheckpoint ("0xburn") resp201
      = (Except.ok ("0xproof"), [ChainCall.fetchProof ("0xburn")]) := rfl

/-- C2 (amended): the poll loop issues at most 360 requests, with a
configured interval of 30000 milliseconds, and returns the payload on the
first response whose status is a success status (any of 200 to 299, status
200 in particular) and whose body parses; every earlier attempt, a 400 or
404 response, any other non-success status, a body on which JSON parsing
throws, or a network failure, continues the loop rather than aborting. -/
theorem c2_poll_bounded_first_success (txHash : String) (responses : Nat → FetchOutcome) :
    ((waitForCheckpoint txHash responses).2.length ≤ maxAttempts
      ∧ maxAttempts = 360 ∧ pollIntervalMs = 30000)
    ∧ ∀ k st r, k < maxAttempts →
        (∀ i, i < k → (responses i).isOk = false) →
        responses k = FetchOutcome.response st (some r) →
        responseOk st = true →
        waitForCheckpoint txHash responses =
          (Except.ok r, List.replicate (k + 1) (ChainCall.fetchProof txHash)) := by
  refine ⟨⟨pollFrom_length_le txHash responses maxAttempts 0, rfl, rfl⟩, ?_⟩
  intro k st r hk hb hr hok
  exact pollFrom_ok_at txHash responses st r k maxAttempts 0 hk
    (fun i hi => by rw [Nat.zero_add]; exact hb i hi)
    (by rw [Nat.zero_add]; exact hr) hok

/-- C2 witness: after two network errors the third attempt answers 200 with
a payload, and the loop returns it having made exactly three requests. -/
theorem c2_witness :
    waitForCheckpoint ("0xburn") respSlow
      = (Except.ok ("0xproof"), List.replicate 3 (ChainCall.fetchProof ("0xburn"))) :=
  (c2_poll_bounded_first_success ("0xburn") respSlow).2 2 200 ("0xproof")
    (by decide) (by decide) rfl rfl

/-- C4: when all 360 attempts elapse with no returning response, the loop
fails with the fixed checkpoint timeout message; and this condition is
distinguishable from transient network or API errors because the timeout
message is the only error the loop can ever surface, transient failure
messages never being propagated. -/
theorem c4_timeout_distinct (txHash : String) (responses : Nat → FetchOutcome)
    (h : ∀ i, i < maxAttempts → (responses i).isOk = false) :
    (waitForCheckpoint txHash responses).1 = Except.error checkpointTimeoutMsg
    ∧ ∀ (other : Nat → FetchOutcome) (e : String),
        (waitForCheckpoint txHash other).1 = Except.error e →
        e = checkpointTimeoutMsg := by
  constructor
  · exact pollFrom_timeout txHash responses maxAttempts 0
      (fun i hi => by rw [Nat.zero_add]; exact h i hi)
  · intro other e he
    exact pollFrom_error_eq txHash other maxAttempts 0 e he

/-- C4 witness: with every fetch a network error, the loop surfaces the
checkpoint timeout message. -/
theorem c4_witness :
    (waitForCheckpoint ("0xburn2") respNever).1 = Except.error checkpointTimeoutMsg :=
  (c4_timeout_distinct ("0xburn2") respNever (fun _ _ => rfl)).1

/-- Step 2 of the exit always invokes processExits on the withdraw manager,
whatever its outcome and the outcome of a possible retry. -/
lemma processExitStep2_mem (cfg : Config) (eenv : ExitEnv) (calls : List ChainCall) :
    ChainCall.processExits cfg.withdrawManager cfg.polSepolia ∈
      (processExitStep2 cfg eenv calls).2 := by
  unfold processExitStep2
  cases hpe : eenv.processExitsResult with
  | ok h => simp
  | fail m =>
    unfold processExitCatch
    by_cases hm : includesSubstr m knownExit = true
    · cases hr : eenv.processExitsRetryResult with
      | ok a => simp [hm, hr]
      | fail b => simp [hm, hr]
    · simp only [Bool.not_eq_true] at hm
      simp [hm]

/-- Step 2 of the exit succeeds when the processExits transaction does. -/
lemma processExitStep2_ok (cfg : Config) (eenv : ExitEnv) (calls : List ChainCall)
    (h2 : String) (hpe : eenv.processExitsResult = TxResult.ok h2) :
    (processExitStep2 cfg eenv calls).1 = Except.ok () := by
  simp [processExitStep2, hpe]

/-- C3: a start-exit failure whose message contains the duplicate-exit
substring KNOWN_EXIT is treated as non-fatal: the process-exits call is
still invoked and, when that call succeeds, the overall operation reports
success; a start-exit failure whose message does not contain the substring
is propagated as fatal and no process-exits call is attempted. -/
theorem c3_duplicate_exit_recovery (cfg : Config) (eenv : ExitEnv) (proof msg : String)
    (hfail : eenv.startExitResult = TxResult.fail msg) :
    (includesSubstr msg knownExit = true →
      ChainCall.processExits cfg.withdrawManager cfg.polSepolia ∈
        (processExit cfg proof eenv).2
      ∧ ∀ h2, eenv.processExitsResult = TxResult.ok h2 →
          (processExit cfg proof eenv).1 = Except.ok ())
    ∧ (includesSubstr msg knownExit = false →
      (processExit cfg proof eenv).1 = Except.error msg
      ∧ ∀ wm tok, ChainCall.processExits wm tok ∉ (processExit cfg proof eenv).2) := by
  constructor
  · intro hin
    have hred : processExit cfg proof eenv =
        processExitStep2 cfg eenv
          [ChainCall.startExitWithBurntTokens cfg.erc20Predicate proof] := by
      simp [processExit, hfail, hin]
    rw [hred]
    exact ⟨processExitStep2_mem cfg eenv _,
      fun h2 hpe => processExitStep2_ok cfg eenv _ h2 hpe⟩
  · intro hnin
    have hred : processExit cfg proof eenv =
        (Except.error msg,
         [ChainCall.startExitWithBurntTokens cfg.erc20Predicate proof]) := by
      simp [processExit, processExitCatch, hfail, hnin]
    rw [hred]
    refine ⟨rfl, ?_⟩
    intro wm tok hmem
    simp at hmem

/-- Exit transaction oracle where the start exit reverts with the
duplicate-exit message and both process-exits calls would succeed. -/
def eenvDup : ExitEnv :=
  { startExitResult := TxResult.fail ("execution reverted: KNOWN_EXIT"),
    processExitsResult := TxResult.ok ("0xPE"),
    processExitsRetryResult := TxResult.ok ("0xPR") }

/-- C3 witness: with a duplicate-exit start failure and a succeeding
process-exits transaction, process-exits is invoked and the exit reports
success. -/
theorem c3_witness :
    ChainCall.processExits cfgT.withdrawManager cfgT.polSepolia ∈
      (processExit cfgT ("0xproof") eenvDup).2
    ∧ (processExit cfgT ("0xproof") eenvDup).1 = Except.ok () := by
  have h := (c3_duplicate_exit_recovery cfgT eenvDup ("0xproof")
    ("execution reverted: KNOWN_EXIT") rfl).1 (by decide)
  exact ⟨h.1, h.2 ("0xPE") rfl⟩

/-- Withdrawal oracle with a zero amount argument and a positive balance. -/
def wenvZero : WithdrawEnv :=
  { code := "0x6080", bal := 5, amountArg := some ("0"),
    burnResult := TxResult.ok ("0xBURN"), autoComplete := none,
    responses := respNever, exitEnv := eenvOk }

/-- C5 counterexample: a zero requested amount is not rejected: zero passes
the balance check, the burn transaction is submitted with argument and
value 0 and the run ends in manual handoff, refuting the claim that the
amount is validated to be strictly positive before any transaction. -/
theorem c5_counterexample :
    withdrawPOL cfgT wenvZero
      = (Except.ok (WithdrawOutcome.manualHandoff ("0xBURN")),
         [ChainCall.getCode cfgT.polAmoy,
          ChainCall.balanceOf cfgT.polAmoy cfgT.walletAddress,
          ChainCall.withdrawBurn cfgT.polAmoy 0 0]) := rfl

/-- C5 (amended): the withdrawal validates only that the amount does not
exceed the queried balance; strict positivity is not checked, and a
withdrawal whose amount parses to zero proceeds to submit the burn
transaction with argument and value 0. -/
theorem c5_zero_amount_not_rejected (cfg : Config) (env : WithdrawEnv)
    (hcode : ¬ env.code = "0x")
    (hp : parseEther (argOrDefault env.amountArg) = some 0) :
    ChainCall.withdrawBurn cfg.polAmoy 0 0 ∈ (withdrawPOL cfg env).2 := by
  obtain ⟨rest, hr⟩ := withdrawPOL_burn_trace cfg env 0 hcode hp (by omega)
  rw [hr]
  simp

/-- C5 witness: the amended theorem applied to the zero-amount fixture. -/
theorem c5_witness :
    ChainCall.withdrawBurn cfgT.polAmoy 0 0 ∈ (withdrawPOL cfgT wenvZero).2 :=
  c5_zero_amount_not_rejected cfgT wenvZero (by decide) (by decide)

/-- Exit transaction oracle where the start exit succeeds and processExits
reverts with a message containing the duplicate-exit substring. -/
def eenvRetry : ExitEnv :=
  { startExitResult := TxResult.ok ("0xSE"),
    processExitsResult := TxResult.fail ("execution reverted: KNOWN_EXIT"),
    processExitsRetryResult := TxResult.ok ("0xPR") }

/-- C6 counterexample: a chain transaction failure that is automatically
retried and never propagated: when processExits reverts with a message
containing KNOWN_EXIT, the outer catch submits processExits a second time
and, the retry succeeding, the exit reports success, swallowing the
failure.  This refutes the claim that every chain transaction failure is
propagated to the caller and never retried. -/
theorem c6_counterexample :
    processExit cfgT ("0xproof") eenvRetry
      = (Except.ok (),
         [ChainCall.startExitWithBurntTokens cfgT.erc20Predicate ("0xproof"),
          ChainCall.processExits cfgT.withdrawManager cfgT.polSepolia,
          ChainCall.processExits cfgT.withdrawManager cfgT.polSepolia]) := rfl

/-- C6 (amended): chain transaction failures are surfaced with the
underlying message and not retried, except that a process-exits failure
whose message contains KNOWN_EXIT is retried once (the counterexample).
In particular a burn failure during withdrawal is reported with the
underlying message and ends the run with the burn submitted exactly once
and nothing after it, and a process-exits failure whose message does not
contain the substring is propagated with its message after a single
process-exits call. -/
theorem c6_failure_propagation (cfg : Config) (env : WithdrawEnv) (eenv : ExitEnv)
    (w : Nat) (msg msg2 proof h : String) :
    (¬ env.code = "0x" → parseEther (argOrDefault env.amountArg) = some w →
      ¬ env.bal < w → env.burnResult = TxResult.fail msg →
      withdrawPOL cfg env =
        (Except.ok (WithdrawOutcome.burnFailed msg),
         [ChainCall.getCode cfg.polAmoy,
          ChainCall.balanceOf cfg.polAmoy cfg.walletAddress,
          ChainCall.withdrawBurn cfg.polAmoy w w]))
    ∧ (eenv.startExitResult = TxResult.ok h →
      eenv.processExitsResult = TxResult.fail msg2 →
      includesSubstr msg2 knownExit = false →
      processExit cfg proof eenv =
        (Except.error msg2,
         [ChainCall.startExitWithBurntTokens cfg.erc20Predicate proof,
          ChainCall.processExits cfg.withdrawManager cfg.polSepolia])) := by
  constructor
  · intro hcode hp hbal hburn
    exact withdrawPOL_burnFail cfg env w msg hcode hp hbal hburn
  · intro hse hpe hnin
    simp [processExit, processExitStep2, processExitCatch, hse, hpe, hnin]

/-- Withdrawal oracle whose burn transaction fails. -/
def wenvBurnFail : WithdrawEnv :=
  { code := "0x6080", bal := 2 * 10 ^ 18, amountArg := some ("1"),
    burnResult := TxResult.fail ("insufficient funds for gas"),
    autoComplete := none, responses := respNever, exitEnv := eenvOk }

/-- Exit transaction oracle where processExits fails with a message not
containing the duplicate-exit substring. -/
def eenvPeFail : ExitEnv :=
  { startExitResult := TxResult.ok ("0xSE"),
    processExitsResult := TxResult.fail ("execution reverted: EXIT_QUEUE_EMPTY"),
    processExitsRetryResult := TxResult.ok ("0xPR") }

/-- C6 witness: the amended theorem at a failing burn and at a
non-duplicate process-exits failure. -/
theorem c6_witness :
    withdrawPOL cfgT wenvBurnFail
      = (Except.ok (WithdrawOutcome.burnFailed ("insufficient funds for gas")),
         [ChainCall.getCode cfgT.polAmoy,
          ChainCall.balanceOf cfgT.polAmoy cfgT.walletAddress,
          ChainCall.withdrawBurn cfgT.polAmoy (10 ^ 18) (10 ^ 18)])
    ∧ processExit cfgT ("0xproof") eenvPeFail
      = (Except.error ("execution reverted: EXIT_QUEUE_EMPTY"),
         [ChainCall.startExitWithBurntTokens cfgT.erc20Predicate ("0xproof"),
          ChainCall.processExits cfgT.withdrawManager cfgT.polSepolia]) := by
  have hthm := c6_failure_propagation cfgT wenvBurnFail eenvPeFail (10 ^ 18)
    ("insufficient funds for gas") ("execution reverted: EXIT_QUEUE_EMPTY")
    ("0xproof") ("0xSE")
  exact ⟨hthm.1 (by decide) (by decide) (by decide) rfl,
    hthm.2 rfl rfl (by decide)⟩

/-- C7: finalizeExit issues exactly one contract call, processExits on the
withdraw manager for the fixed POL token address on Sepolia, whatever the
transaction outcome, and never issues a start-exit call. -/
theorem c7_finalize_single_call (cfg : Config) (pe : TxResult) :
    (finalizeExit cfg pe).2 =
      [ChainCall.processExits cfg.withdrawManager cfg.polSepolia]
    ∧ ∀ p d, ChainCall.startExitWithBurntTokens p d ∉ (finalizeExit cfg pe).2 := by
  cases pe with
  | ok h =>
    refine ⟨rfl, ?_⟩
    intro p d hm
    simp [finalizeExit] at hm
  | fail m =>
    refine ⟨rfl, ?_⟩
    intro p d hm
    simp [finalizeExit] at hm

/-- C8: with automatic continuation disabled, a withdrawal that parses its
amount, passes the balance check and confirms the burn halts right after
the burn, returning the burn transaction hash, with no checkpoint polling
and no exit processing in the invocation. -/
theorem c8_manual_handoff (cfg : Config) (env : WithdrawEnv) (w : Nat) (h : String)
    (hcode : ¬ env.code = "0x") (hp : parseEther (argOrDefault env.amountArg) = some w)
    (hbal : ¬ env.bal < w) (hburn : env.burnResult = TxResult.ok h)
    (hauto : ¬ env.autoComplete = some ("true")) :
    withdrawPOL cfg env =
      (Except.ok (WithdrawOutcome.manualHandoff h),
       [ChainCall.getCode cfg.polAmoy,
        ChainCall.balanceOf cfg.polAmoy cfg.walletAddress,
        ChainCall.withdrawBurn cfg.polAmoy w w])
    ∧ (∀ tx, ChainCall.fetchProof tx ∉ (withdrawPOL cfg env).2)
    ∧ (∀ p d, ChainCall.startExitWithBurntTokens p d ∉ (withdrawPOL cfg env).2)
    ∧ (∀ wm tok, ChainCall.processExits wm tok ∉ (withdrawPOL cfg env).2) := by
  have heq := withdrawPOL_manual cfg env w h hcode hp hbal hburn hauto
  refine ⟨heq, ?_, ?_, ?_⟩
  · intro tx hm
    rw [heq] at hm
    simp at hm
  · intro p d hm
    rw [heq] at hm
    simp at hm
  · intro wm tok hm
    rw [heq] at hm
    simp at hm

/-- C8 witness: the fixture with automatic completion unset halts in manual
handoff with the burn hash after exactly the code query, the balance query
and the burn. -/
theorem c8_witness :
    withdrawPOL cfgT wenvT
      = (Except.ok (WithdrawOutcome.manualHandoff ("0xBURN")),
         [ChainCall.getCode cfgT.polAmoy,
          ChainCall.balanceOf cfgT.polAmoy cfgT.walletAddress,
          ChainCall.withdrawBurn cfgT.polAmoy (10 ^ 18) (10 ^ 18)]) :=
  (c8_manual_handoff cfgT wenvT (10 ^ 18) ("0xBURN") (by decide) (by decide)
    (by decide) rfl (by decide)).1

/-- C9: when the code query for the configured child token address returns
0x, the withdrawal returns early reporting the missing contract, before any
balance query and without submitting any transaction. -/
theorem c9_no_contract_early_return (cfg : Config) (env : WithdrawEnv)
    (hcode : env.code = "0x") :
    withdrawPOL cfg env =
      (Except.ok WithdrawOutcome.noContract, [ChainCall.getCode cfg.polAmoy])
    ∧ (∀ t a, ChainCall.balanceOf t a ∉ (withdrawPOL cfg env).2)
    ∧ ∀ c ∈ (withdrawPOL cfg env).2, c.isTx = false := by
  have heq := withdrawPOL_noContract cfg env hcode
  refine ⟨heq, ?_, ?_⟩
  · intro t a hm
    rw [heq] at hm
    simp at hm
  · intro c hc
    rw [heq] at hc
    simp at hc
    subst hc
    rfl

/-- Withdrawal oracle where the code query returns the empty code 0x. -/
def wenvNoContract : WithdrawEnv :=
  { code := "0x", bal := 5, amountArg := none,
    burnResult := TxResult.ok ("0xBURN"), autoComplete := none,
    responses := respNever, exitEnv := eenvOk }

/-- C9 witness: with empty code the run stops after the code query. -/
theorem c9_witness :
    withdrawPOL cfgT wenvNoContract
      = (Except.ok WithdrawOutcome.noContract, [ChainCall.getCode cfgT.polAmoy]) :=
  (c9_no_contract_early_return cfgT wenvNoContract rfl).1

/-- C10: deposit and withdraw invoked without an amount argument proceed
with the default amount of one token, 10 ^ 18 smallest units, rather than
failing: the missing argument parses to 10 ^ 18 wei, the deposit starts by
approving exactly that amount, and the withdrawal, when the balance
suffices, submits the burn with exactly that amount. -/
theorem c10_default_amount (cfg : Config) (denv : DepositEnv) (env : WithdrawEnv)
    (hd : denv.amountArg = none) (hw : env.amountArg = none)
    (hcode : ¬ env.code = "0x") :
    parseEther (argOrDefault none) = some (10 ^ 18)
    ∧ (∃ rest, (bridgePOL cfg denv).2 =
        ChainCall.approve cfg.polSepolia cfg.depositManager (10 ^ 18) :: rest)
    ∧ (¬ env.bal < 10 ^ 18 →
        ChainCall.withdrawBurn cfg.polAmoy (10 ^ 18) (10 ^ 18) ∈
          (withdrawPOL cfg env).2) := by
  have hpe : parseEther (argOrDefault none) = some (10 ^ 18) := by decide
  refine ⟨hpe, ?_, ?_⟩
  · simp only [bridgePOL, hd, hpe]
    cases ha : denv.approveResult with
    | fail m => exact ⟨[], by simp⟩
    | ok m =>
      cases hb : denv.depositResult with
      | fail m2 =>
        exact ⟨[ChainCall.depositERC20ForUser cfg.depositManager cfg.polSepolia
          cfg.walletAddress (10 ^ 18)], by simp⟩
      | ok m2 =>
        exact ⟨[ChainCall.depositERC20ForUser cfg.depositManager cfg.polSepolia
          cfg.walletAddress (10 ^ 18)], by simp⟩
  · intro hbal
    have hp2 : parseEther (argOrDefault env.amountArg) = some (10 ^ 18) := by
      rw [hw]
      exact hpe
    obtain ⟨rest, hr⟩ := withdrawPOL_burn_trace cfg env (10 ^ 18) hcode hp2 hbal
    rw [hr]
    simp

/-- Deposit oracle with no amount argument and succeeding transactions. -/
def denvT : DepositEnv :=
  { amountArg := none, approveResult := TxResult.ok ("0xAPP"),
    depositResult := TxResult.ok ("0xDEP") }

/-- Withdrawal oracle with no amount argument and a 2 token balance. -/
def wenvNoArg : WithdrawEnv :=
  { code := "0x6080", bal := 2 * 10 ^ 18, amountArg := none,
    burnResult := TxResult.ok ("0xBURN"), autoComplete := none,
    responses := respNever, exitEnv := eenvOk }

/-- C10 witness: with no amount argument, the deposit approves 10 ^ 18 wei
and the withdrawal burns 10 ^ 18 wei. -/
theorem c10_witness :
    (∃ rest, (bridgePOL cfgT denvT).2 =
      ChainCall.approve cfgT.polSepolia cfgT.depositManager (10 ^ 18) :: rest)
    ∧ ChainCall.withdrawBurn cfgT.polAmoy (10 ^ 18) (10 ^ 18) ∈
        (withdrawPOL cfgT wenvNoArg).2 := by
  have h := c10_default_amount cfgT denvT wenvNoArg rfl rfl (by decide)
  exact ⟨h.2.1, h.2.2 (by decide)⟩

end PolBridge
